import Mathlib

/-!
Verification of the window-manager / pixel-filter / freeze-controller core of
the `drawn-website` repository.

The JavaScript classes are shallowly embedded:
* `WindowManager` (drag controller and window registry): pixel coordinates are
  modelled as rationals, window identities as naturals, DOM style writes as
  explicit record updates.
* `DrawingModeManager` (mode-freeze controller): the set of capture-phase
  document listeners is a list of (event-type, handler-identity) pairs;
  each `blockInteractions` call allocates fresh closure identities, matching
  the fact that the JS code creates new function objects on every call.
  `addEventListener` deduplicates an identical (type, handler) pair, and
  `removeEventListener` removes a matching pair if present.
* `DesktopApps.applySketchFilter`: the RGBA byte buffer returned by
  `getImageData` is a function from flat indices to rationals, the output
  buffer created by `createImageData` starts as all zeros and holds real
  values (the filter writes `255 - Math.sqrt (gx*gx + gy*gy)` on edges).
* `DesktopApps` drawings/gallery: the submitted-drawings array and the
  gallery grid are lists; the canvas `toDataURL` PNG serialization is an
  abstract parameter.
-/

namespace WindowManager

/-- Ambient browser data read by the window manager: viewport size
(`window.innerWidth/innerHeight`), per-window rendered size
(`getBoundingClientRect().width/height`), whether `getElementById` finds the
window, and whether its computed `display` style differs from `none`. -/
structure Env where
  innerWidth : ℚ
  innerHeight : ℚ
  rectW : Nat → ℚ
  rectH : Nat → ℚ
  present : Nat → Bool
  displayNotNone : Nat → Bool

/-- DOM state touched by the drag controller: inline `left`/`top` styles,
header cursor style, body `user-select`, whether the document-level
pointermove/up/cancel listeners are registered, and whether the delayed
transition-restore timeout of `stopDrag` is pending. -/
structure Dom where
  left : Nat → ℚ
  top : Nat → ℚ
  cursor : Nat → String
  bodyUserSelect : String
  dragListeners : Bool
  pendingTransitionReset : Bool

/-- Mutable fields of the `WindowManager` instance used by the drag state
machine, together with the DOM state it writes. -/
structure DragState where
  isDragging : Bool
  activeWindow : Option Nat
  dragStartX : ℚ
  dragStartY : ℚ
  windowStartX : ℚ
  windowStartY : ℚ
  dom : Dom

/-- `WindowManager.handleDrag` (src/unnamed/part_001, lines 197-231).
Early-returns unless a drag is in progress with an active window; otherwise
computes `windowStart + (pointer - dragStart)`, clamps it to
`[-w+100, innerWidth-100] × [0, innerHeight-50]` and writes the result to the
`left`/`top` styles of the active window. -/
def handleDrag (env : Env) (st : DragState) (clientX clientY : ℚ) : DragState :=
  if st.isDragging = false then st else
  match st.activeWindow with
  | none => st
  | some id =>
    let deltaX := clientX - st.dragStartX
    let deltaY := clientY - st.dragStartY
    let newX0 := st.windowStartX + deltaX
    let newY0 := st.windowStartY + deltaY
    let windowWidth := env.rectW id
    let minX := -windowWidth + 100
    let minY : ℚ := 0
    let maxX := env.innerWidth - 100
    let maxY := env.innerHeight - 50
    let newX := max minX (min newX0 maxX)
    let newY := max minY (min newY0 maxY)
    { st with dom := { st.dom with
        left := Function.update st.dom.left id newX,
        top := Function.update st.dom.top id newY } }

/-- `WindowManager.stopDrag` (src/unnamed/part_001, lines 233-265).
Early-returns unless a drag is in progress; otherwise clears the dragging
flag, restores the header cursor, schedules the delayed transition restore,
clears the active window, removes the document drag listeners and restores
body text selection. -/
def stopDrag (st : DragState) : DragState :=
  if st.isDragging = false then st else
  let dom1 :=
    match st.activeWindow with
    | some id =>
      { st.dom with
          cursor := Function.update st.dom.cursor id "grab",
          pendingTransitionReset := true }
    | none => st.dom
  { st with
      isDragging := false,
      activeWindow := none,
      dom := { dom1 with dragListeners := false, bodyUserSelect := "" } }

/-- A run of pointer-move events during one drag session: `handleDrag` folded
over the sequence of pointer positions. -/
def dragMoves (env : Env) (st : DragState) (moves : List (ℚ × ℚ)) : DragState :=
  moves.foldl (fun s m => handleDrag env s m.1 m.2) st

/-- Concrete environment for the C1 counterexample: a 50px-wide window on a
100px-wide viewport, so the horizontal clamp interval
`[-(w-100), innerWidth-100] = [50, 0]` is empty. -/
def cexEnv : Env :=
  ⟨100, 600, fun _ => 50, fun _ => 200, fun _ => true, fun _ => true⟩

/-- Concrete mid-drag state for the C1 counterexample: window 0 is being
dragged, all drag-start coordinates are 0. -/
def cexSt : DragState :=
  ⟨true, some 0, 0, 0, 0, 0, ⟨fun _ => 0, fun _ => 0, fun _ => "grab", "", true, false⟩⟩

/-- Window registry state: which ids are registered in `this.windows`, the
stored `zIndex` of each registered window, the shared `currentZIndex` counter,
the `active` CSS class, inline `left`/`top` styles, and the inline
`z-index` style. -/
structure RegState where
  registered : Nat → Bool
  storedZ : Nat → Nat
  currentZIndex : Nat
  active : Nat → Bool
  left : Nat → ℚ
  top : Nat → ℚ
  zStyle : Nat → Nat

/-- `WindowManager.bringToFront` (src/unnamed/part_001, lines 270-280):
increments the shared counter, writes it to the `z-index` style of the element,
and updates the stored `zIndex` when the window is registered. -/
def bringToFront (st : RegState) (id : Nat) : RegState :=
  let z := st.currentZIndex + 1
  let st1 := { st with currentZIndex := z, zStyle := Function.update st.zStyle id z }
  if st1.registered id then
    { st1 with storedZ := Function.update st1.storedZ id z }
  else st1

/-- `WindowManager.centerWindowNow` (src/unnamed/part_001, lines 95-112):
writes `left = (innerWidth - rect.width)/2` and
`top = (innerHeight - rect.height)/2` with no clamping. -/
def centerWindowNow (env : Env) (st : RegState) (id : Nat) : RegState :=
  { st with
      left := Function.update st.left id ((env.innerWidth - env.rectW id) / 2),
      top := Function.update st.top id ((env.innerHeight - env.rectH id) / 2) }

/-- `WindowManager.setupWindow` (src/unnamed/part_001, lines 73-90): centers
the window when it is active or displayed, then registers it with the base
z-index 100. -/
def setupWindow (env : Env) (st : RegState) (id : Nat) : RegState :=
  let st1 := if st.active id || env.displayNotNone id then centerWindowNow env st id else st
  { st1 with
      registered := Function.update st1.registered id true,
      storedZ := Function.update st1.storedZ id 100 }

/-- `WindowManager.showWindow` (src/unnamed/part_001, lines 285-314): no-op
when the element is missing; otherwise registers the window if needed, adds
the `active` class, centers it with `centerWindowNow`, and raises it with
`bringToFront`. -/
def showWindow (env : Env) (st : RegState) (id : Nat) : RegState :=
  if env.present id = false then st else
  let st1 := if st.registered id then st else setupWindow env st id
  let st2 := { st1 with active := Function.update st1.active id true }
  let st3 := centerWindowNow env st2 id
  bringToFront st3 id

/-- A sequence of `bringToFront` calls. -/
def runBringToFront (st : RegState) (calls : List Nat) : RegState :=
  calls.foldl bringToFront st

/-- Environment for the C4 counterexample: a 300px-wide window on a
100px-wide viewport. -/
def cexEnv4 : Env :=
  ⟨100, 0, fun _ => 300, fun _ => 0, fun _ => true, fun _ => true⟩

/-- Initial registry state for the C4 counterexample. -/
def cexReg : RegState :=
  ⟨fun _ => false, fun _ => 100, 100, fun _ => false, fun _ => 0, fun _ => 0, fun _ => 100⟩

end WindowManager

namespace DrawingModeManager

/-- A capture-phase document listener registration: event type plus the
identity of the handler closure. -/
abbrev Listener := String × Nat

/-- `document.addEventListener(t, h, true)`: a second registration of the
same (type, handler) pair is ignored, otherwise the pair is appended. -/
def addListener (l : List Listener) (t : String) (i : Nat) : List Listener :=
  if (t, i) ∈ l then l else l ++ [(t, i)]

/-- `document.removeEventListener(t, h, true)`: removes a matching
registration; a no-op if the pair is not registered. -/
def removeListener (l : List Listener) (t : String) (i : Nat) : List Listener :=
  l.filter (fun p => decide (p ≠ (t, i)))

/-- Listener-related state of `DrawingModeManager`: a supply of fresh closure
identities, the capture-phase registrations on the document, and the four stored
blocker references. -/
structure FreezeState where
  nextId : Nat
  doc : List Listener
  interactionBlocker : Option Nat
  keyBlocker : Option Nat
  submitBlocker : Option Nat
  contextMenuBlocker : Option Nat

/-- The state built by the `DrawingModeManager` constructor: no listeners,
all blocker references null. -/
def initFreeze : FreezeState := ⟨0, [], none, none, none, none⟩

/-- `DrawingModeManager.blockInteractions` (src/unnamed/part_000, lines
198-271): creates four fresh handler closures, overwrites the stored blocker
references with them, and registers the click family, the key events, submit
and contextmenu at the capture phase of the document. -/
def blockInteractions (st : FreezeState) : FreezeState :=
  let ib := st.nextId
  let kb := st.nextId + 1
  let sb := st.nextId + 2
  let cb := st.nextId + 3
  let d1 := addListener (addListener (addListener (addListener st.doc
              "click" ib) "dblclick" ib) "mousedown" ib) "mouseup" ib
  let d2 := addListener (addListener (addListener d1
              "keydown" kb) "keypress" kb) "keyup" kb
  let d3 := addListener d2 "submit" sb
  let d4 := addListener d3 "contextmenu" cb
  { nextId := st.nextId + 4, doc := d4,
    interactionBlocker := some ib, keyBlocker := some kb,
    submitBlocker := some sb, contextMenuBlocker := some cb }

/-- `DrawingModeManager.unblockInteractions` (src/unnamed/part_000, lines
273-301): for each non-null blocker reference, removes the associated
registrations and nulls the reference. -/
def unblockInteractions (st : FreezeState) : FreezeState :=
  let st1 :=
    match st.interactionBlocker with
    | some i =>
      { st with
          doc := removeListener (removeListener (removeListener (removeListener st.doc
                   "click" i) "dblclick" i) "mousedown" i) "mouseup" i,
          interactionBlocker := none }
    | none => st
  let st2 :=
    match st1.keyBlocker with
    | some i =>
      { st1 with
          doc := removeListener (removeListener (removeListener st1.doc
                   "keydown" i) "keypress" i) "keyup" i,
          keyBlocker := none }
    | none => st1
  let st3 :=
    match st2.submitBlocker with
    | some i => { st2 with doc := removeListener st2.doc "submit" i, submitBlocker := none }
    | none => st2
  match st3.contextMenuBlocker with
  | some i => { st3 with doc := removeListener st3.doc "contextmenu" i, contextMenuBlocker := none }
  | none => st3

/-- Number of capture-phase registrations of one event type. -/
def countType (l : List Listener) (t : String) : Nat :=
  (l.filter (fun p => decide (p.1 = t))).length

end DrawingModeManager

namespace DesktopApps

/-- An RGBA frame as returned by `getImageData`: dimensions plus a flat byte
buffer indexed by `(y * width + x) * 4 + channel`; byte values (0..255) are
modelled as rationals. -/
structure ImageDataQ where
  width : Nat
  height : Nat
  data : Nat → ℚ

/-- An output frame as built by `createImageData` and the filter loop: same
flat indexing, real-valued samples (on edges the filter writes
`255 - Math.sqrt (gx*gx + gy*gy)`). -/
structure ImageDataR where
  width : Nat
  height : Nat
  data : Nat → ℝ

/-- Flat base index of pixel `(x, y)`: `(y * width + x) * 4`. -/
def pix (w x y : Nat) : Nat := (y * w + x) * 4

/-- Grayscale luminance of the pixel starting at flat index `idx`:
`data[idx] * 0.299 + data[idx+1] * 0.587 + data[idx+2] * 0.114`. -/
def grayIdx (data : Nat → ℚ) (idx : Nat) : ℚ :=
  data idx * 0.299 + data (idx + 1) * 0.587 + data (idx + 2) * 0.114

/-- Horizontal gradient at interior pixel `(x, y)`:
`(Y(topRight) + Y(bottomRight)) - (Y(topLeft) + Y(bottomLeft))`. -/
def gxAt (data : Nat → ℚ) (w x y : Nat) : ℚ :=
  (grayIdx data (pix w (x + 1) (y - 1)) + grayIdx data (pix w (x + 1) (y + 1))) -
    (grayIdx data (pix w (x - 1) (y - 1)) + grayIdx data (pix w (x - 1) (y + 1)))

/-- Vertical gradient at interior pixel `(x, y)`:
`(Y(bottomLeft) + Y(bottomRight)) - (Y(topLeft) + Y(topRight))`. -/
def gyAt (data : Nat → ℚ) (w x y : Nat) : ℚ :=
  (grayIdx data (pix w (x - 1) (y + 1)) + grayIdx data (pix w (x + 1) (y + 1))) -
    (grayIdx data (pix w (x - 1) (y - 1)) + grayIdx data (pix w (x + 1) (y - 1)))

/-- Edge magnitude `Math.sqrt (gx*gx + gy*gy)`. -/
noncomputable def magnitudeAt (data : Nat → ℚ) (w x y : Nat) : ℝ :=
  Real.sqrt ((gxAt data w x y : ℝ) * (gxAt data w x y : ℝ) +
    (gyAt data w x y : ℝ) * (gyAt data w x y : ℝ))

open Classical

/-- The monochrome value written at interior pixel `(x, y)`: dark pencil line
`max 0 (255 - magnitude)` when `magnitude > 30` (edge), brightened paper
`min 255 (gray + 30)` otherwise. -/
noncomputable def sketchValue (data : Nat → ℚ) (w x y : Nat) : ℝ :=
  if 30 < magnitudeAt data w x y then max 0 (255 - magnitudeAt data w x y)
  else min 255 ((grayIdx data (pix w x y) : ℝ) + 30)

/-- The four buffer writes for one interior pixel: the value into R, G and B
and 255 into alpha. -/
noncomputable def writePixel (buf : Nat → ℝ) (idx : Nat) (v : ℝ) : Nat → ℝ :=
  Function.update (Function.update (Function.update (Function.update buf
    idx v) (idx + 1) v) (idx + 2) v) (idx + 3) 255

/-- `DesktopApps.applySketchFilter` (src/unnamed/part_001, lines 554-615):
allocates the output of `createImageData(width, height)` (all-zero RGBA) and,
for `y` from 1 to `height - 2` and `x` from 1 to `width - 2`, writes
`sketchValue` into the three colour channels of pixel `(x, y)` and 255 into
its alpha. -/
noncomputable def applySketchFilter (src : ImageDataQ) : ImageDataR :=
  { width := src.width, height := src.height,
    data :=
      ((List.range (src.height - 2)).map (fun j => j + 1)).foldl (fun buf y =>
        ((List.range (src.width - 2)).map (fun i => i + 1)).foldl (fun b x =>
          writePixel b (pix src.width x y) (sketchValue src.data src.width x y)) buf)
        (fun _ => 0) }

/-- Input frame for the C5 witness: a 3×3 frame, all black except the
bottom-right pixel (value 100 in R, G and B), giving gradients
`gx = gy = 100` and magnitude `sqrt 20000 > 30` at the interior pixel. -/
def edgeSrc : ImageDataQ := ⟨3, 3, fun i => if 32 ≤ i ∧ i ≤ 34 then 100 else 0⟩

/-- A submitted drawing: `Date.now()` id, the PNG data URL produced by
the canvas `toDataURL` call with the PNG media type, and the locale
timestamp string. -/
structure Drawing where
  id : Nat
  dataURL : String
  timestamp : String
deriving DecidableEq

/-- A rendered gallery entry: image source, alt text, caption. -/
structure GalleryItem where
  src : String
  alt : String
  caption : String
deriving DecidableEq

/-- `DesktopApps` state touched by the notepad/gallery flow: the drawings
submitted this session, the notepad canvas (`none` until `setupDrawingCanvas`
runs; bitmap contents abstracted as a Nat), the children of the gallery grid
and whether the grid shows the empty-gallery placeholder. -/
structure AppsState where
  drawings : List Drawing
  canvas : Option Nat
  galleryGrid : List GalleryItem
  emptyMessage : Bool

/-- One gallery entry for drawing `d` at position `idx` (the forEach body of
`renderGallery`): image source is the stored data URL, alt text is
`Drawing (idx+1)`, caption is the timestamp. -/
def mkItem (idx : Nat) (d : Drawing) : GalleryItem :=
  ⟨d.dataURL, "Drawing " ++ toString (idx + 1), d.timestamp⟩

/-- `DesktopApps.renderGallery` (src/unnamed/part_001, lines 846-877): clears
the grid; with no drawings it shows only the placeholder message, otherwise
it appends one entry per stored drawing, in order. -/
def renderGallery (st : AppsState) : AppsState :=
  if st.drawings = [] then { st with galleryGrid := [], emptyMessage := true }
  else
    { st with
        galleryGrid := (st.drawings.enum).foldl (fun grid p => grid ++ [mkItem p.1 p.2]) [],
        emptyMessage := false }

/-- `DesktopApps.submitDrawing` (src/unnamed/part_001, lines 790-817),
parameterized by `Date.now()`, the formatted timestamp, and the abstract PNG
serializer `png` standing for the canvas `toDataURL` call with the PNG
media type: alerts and returns
when no canvas exists; otherwise pushes the serialized drawing, clears the
canvas to white, and opens the gallery, which re-renders the grid. -/
def submitDrawing (png : Nat → String) (now : Nat) (ts : String) (white : Nat)
    (st : AppsState) : AppsState :=
  match st.canvas with
  | none => st
  | some c =>
    renderGallery
      { st with
          drawings := st.drawings ++ [⟨now, png c, ts⟩],
          canvas := some white }

/-- The session operations that can touch `this.drawings`, the canvas or the
gallery grid. -/
inductive AppOp where
  | submit (now : Nat) (ts : String) (white : Nat)
  | clearCanvas (white : Nat)
  | openGallery
  | setupCanvas (c : Nat)

/-- Effect of one session operation (`clearNotepad` only refills an existing
canvas with white; `openGallery` re-renders the grid). -/
def applyOp (png : Nat → String) (st : AppsState) : AppOp → AppsState
  | AppOp.submit now ts white => submitDrawing png now ts white st
  | AppOp.clearCanvas white =>
    match st.canvas with
    | some _ => { st with canvas := some white }
    | none => st
  | AppOp.openGallery => renderGallery st
  | AppOp.setupCanvas c => { st with canvas := some c }

end DesktopApps

namespace WindowManager

theorem handleDrag_isDragging (env : Env) (st : DragState) (cx cy : ℚ) :
    (handleDrag env st cx cy).isDragging = st.isDragging := by
  unfold handleDrag
  split <;> [rfl; (split <;> rfl)]

theorem handleDrag_activeWindow (env : Env) (st : DragState) (cx cy : ℚ) :
    (handleDrag env st cx cy).activeWindow = st.activeWindow := by
  unfold handleDrag
  split <;> [rfl; (split <;> rfl)]

theorem handleDrag_step_bounds (env : Env) (st : DragState) (id : Nat)
    (hd : st.isDragging = true) (ha : st.activeWindow = some id)
    (hx : -(env.rectW id - 100) ≤ env.innerWidth - 100)
    (hy : (0 : ℚ) ≤ env.innerHeight - 50) (cx cy : ℚ) :
    -(env.rectW id - 100) ≤ (handleDrag env st cx cy).dom.left id ∧
      (handleDrag env st cx cy).dom.left id ≤ env.innerWidth - 100 ∧
      0 ≤ (handleDrag env st cx cy).dom.top id ∧
      (handleDrag env st cx cy).dom.top id ≤ env.innerHeight - 50 := by
  have hneg : -(env.rectW id - 100) = -env.rectW id + 100 := by ring
  unfold handleDrag
  rw [hd, ha]
  simp only [Bool.true_eq_false, if_false, Function.update_same]
  refine ⟨?_, ?_, ?_, ?_⟩
  · rw [hneg]; exact le_max_left _ _
  · exact max_le (by linarith) (min_le_right _ _)
  · exact le_max_left _ _
  · exact max_le hy (min_le_right _ _)

/-- Claim C1 as stated is false: with a 50px-wide window on a 100px-wide
viewport (clamp interval `[-(w-100), viewportWidth-100] = [50, 0]` empty), a
pointer-move writes `left = 50`, which violates the claimed upper bound
`left ≤ viewportWidth - 100 = 0`. -/
theorem c1_counterexample :
    (handleDrag cexEnv cexSt 0 0).dom.left 0 = 50 ∧
      ¬ (handleDrag cexEnv cexSt 0 0).dom.left 0 ≤ cexEnv.innerWidth - 100 := by
  constructor
  · norm_num [handleDrag, cexEnv, cexSt, Function.update]
  · norm_num [handleDrag, cexEnv, cexSt, Function.update]

/-- Claim C1 (amended): provided the clamp intervals are non-empty
(`-(w-100) ≤ viewportWidth-100` and `0 ≤ viewportHeight-50`), every
pointer-move of a drag session writes a position with
`left ∈ [-(w-100), viewportWidth-100]` and `top ∈ [0, viewportHeight-50]`,
and hence the final position after any non-empty sequence of moves satisfies
the same bounds. -/
theorem c1_drag_position_clamped (env : Env) (st : DragState) (id : Nat)
    (hd : st.isDragging = true) (ha : st.activeWindow = some id)
    (hx : -(env.rectW id - 100) ≤ env.innerWidth - 100)
    (hy : (0 : ℚ) ≤ env.innerHeight - 50) :
    (∀ cx cy : ℚ,
      -(env.rectW id - 100) ≤ (handleDrag env st cx cy).dom.left id ∧
        (handleDrag env st cx cy).dom.left id ≤ env.innerWidth - 100 ∧
        0 ≤ (handleDrag env st cx cy).dom.top id ∧
        (handleDrag env st cx cy).dom.top id ≤ env.innerHeight - 50) ∧
    (∀ moves : List (ℚ × ℚ), moves ≠ [] →
      -(env.rectW id - 100) ≤ (dragMoves env st moves).dom.left id ∧
        (dragMoves env st moves).dom.left id ≤ env.innerWidth - 100 ∧
        0 ≤ (dragMoves env st moves).dom.top id ∧
        (dragMoves env st moves).dom.top id ≤ env.innerHeight - 50) := by
  constructor
  · exact fun cx cy => handleDrag_step_bounds env st id hd ha hx hy cx cy
  · intro moves
    induction moves generalizing st with
    | nil => intro h; exact absurd rfl h
    | cons m rest ih =>
      intro _
      cases rest with
      | nil =>
        simpa [dragMoves] using handleDrag_step_bounds env st id hd ha hx hy m.1 m.2
      | cons m2 r2 =>
        have hd' : (handleDrag env st m.1 m.2).isDragging = true := by
          rw [handleDrag_isDragging]; exact hd
        have ha' : (handleDrag env st m.1 m.2).activeWindow = some id := by
          rw [handleDrag_activeWindow]; exact ha
        have hstep : dragMoves env st (m :: m2 :: r2) =
            dragMoves env (handleDrag env st m.1 m.2) (m2 :: r2) := by
          simp [dragMoves]
        rw [hstep]
        exact ih (handleDrag env st m.1 m.2) hd' ha' (by simp)

/-- Closed witness for the amended claim C1 at a concrete dragging state on a
1200×800 viewport with a 300px-wide window. -/
theorem c1_drag_position_clamped_witness :
    (let env : Env := ⟨1200, 800, fun _ => 300, fun _ => 200, fun _ => true, fun _ => true⟩
     let st : DragState :=
       ⟨true, some 0, 0, 0, 100, 100, ⟨fun _ => 0, fun _ => 0, fun _ => "grab", "", true, false⟩⟩
     (∀ cx cy : ℚ,
       -(env.rectW 0 - 100) ≤ (handleDrag env st cx cy).dom.left 0 ∧
         (handleDrag env st cx cy).dom.left 0 ≤ env.innerWidth - 100 ∧
         0 ≤ (handleDrag env st cx cy).dom.top 0 ∧
         (handleDrag env st cx cy).dom.top 0 ≤ env.innerHeight - 50) ∧
     (∀ moves : List (ℚ × ℚ), moves ≠ [] →
       -(env.rectW 0 - 100) ≤ (dragMoves env st moves).dom.left 0 ∧
         (dragMoves env st moves).dom.left 0 ≤ env.innerWidth - 100 ∧
         0 ≤ (dragMoves env st moves).dom.top 0 ∧
         (dragMoves env st moves).dom.top 0 ≤ env.innerHeight - 50)) :=
  c1_drag_position_clamped _ _ 0 rfl rfl (by norm_num) (by norm_num)

/-- Claim C10: when no drag session is active (`isDragging = false`), both
`handleDrag` and `stopDrag` are no-ops: the manager state, every window
position and cursor style, and the rest of the modelled DOM are unchanged. -/
theorem c10_no_drag_noop (env : Env) (st : DragState) (cx cy : ℚ)
    (h : st.isDragging = false) :
    handleDrag env st cx cy = st ∧ stopDrag st = st := by
  constructor
  · unfold handleDrag; rw [h]; simp
  · unfold stopDrag; rw [h]; simp

/-- Closed witness for claim C10 at a concrete idle state. -/
theorem c10_no_drag_noop_witness :
    (let env : Env := ⟨1200, 800, fun _ => 300, fun _ => 200, fun _ => true, fun _ => true⟩
     let st : DragState :=
       ⟨false, none, 0, 0, 0, 0, ⟨fun _ => 0, fun _ => 0, fun _ => "grab", "", false, false⟩⟩
     handleDrag env st 5 7 = st ∧ stopDrag st = st) :=
  c10_no_drag_noop _ _ 5 7 rfl

theorem bringToFront_counter (st : RegState) (id : Nat) :
    (bringToFront st id).currentZIndex = st.currentZIndex + 1 := by
  simp only [bringToFront]; split_ifs <;> rfl

theorem bringToFront_zStyle_self (st : RegState) (id : Nat) :
    (bringToFront st id).zStyle id = st.currentZIndex + 1 := by
  simp only [bringToFront]; split_ifs <;> simp [Function.update_same]

theorem bringToFront_zStyle_other (st : RegState) (id w : Nat) (h : w ≠ id) :
    (bringToFront st id).zStyle w = st.zStyle w := by
  simp only [bringToFront]; split_ifs <;> simp [Function.update_noteq h]

theorem runBringToFront_counter (st : RegState) (calls : List Nat) :
    (runBringToFront st calls).currentZIndex = st.currentZIndex + calls.length := by
  induction calls generalizing st with
  | nil => rfl
  | cons c rest ih =>
    have : runBringToFront st (c :: rest) = runBringToFront (bringToFront st c) rest := rfl
    rw [this, ih, bringToFront_counter]
    simp [List.length_cons]
    omega

theorem runBringToFront_zStyle_le (st : RegState) (calls : List Nat)
    (h0 : ∀ w, st.zStyle w ≤ st.currentZIndex) :
    ∀ w, (runBringToFront st calls).zStyle w ≤ (runBringToFront st calls).currentZIndex := by
  induction calls generalizing st with
  | nil => exact h0
  | cons c rest ih =>
    have hstep : runBringToFront st (c :: rest) = runBringToFront (bringToFront st c) rest := rfl
    rw [hstep]
    apply ih
    intro w
    rw [bringToFront_counter]
    by_cases hw : w = c
    · subst hw; rw [bringToFront_zStyle_self]
    · rw [bringToFront_zStyle_other st c w hw]
      exact Nat.le_succ_of_le (h0 w)

/-- Claim C2: every `bringToFront` call increments the shared z-index counter
(so after the first `k` calls the counter is the initial counter plus `k`,
and the value assigned by the `k`-th call is `initial + k`, strictly
increasing in call order), and after any non-empty call sequence the window
of the last call carries the final counter as its z-index, strictly above
every other window. -/
theorem c2_bringToFront_monotone (st : RegState) (calls : List Nat)
    (h0 : ∀ w, st.zStyle w ≤ st.currentZIndex) :
    (∀ k, k ≤ calls.length →
      (runBringToFront st (calls.take k)).currentZIndex = st.currentZIndex + k) ∧
    (∀ pre lastC, calls = pre ++ [lastC] →
      (runBringToFront st calls).zStyle lastC = (runBringToFront st calls).currentZIndex ∧
      ∀ w, w ≠ lastC →
        (runBringToFront st calls).zStyle w < (runBringToFront st calls).currentZIndex) := by
  constructor
  · intro k hk
    rw [runBringToFront_counter]
    simp [List.length_take, Nat.min_eq_left hk]
  · intro pre lastC hsplit
    subst hsplit
    have hfold : runBringToFront st (pre ++ [lastC]) =
        bringToFront (runBringToFront st pre) lastC := by
      simp [runBringToFront]
    have hle := runBringToFront_zStyle_le st pre h0
    constructor
    · rw [hfold, bringToFront_zStyle_self, bringToFront_counter]
    · intro w hw
      rw [hfold, bringToFront_zStyle_other _ _ _ hw, bringToFront_counter]
      exact Nat.lt_succ_of_le (hle w)

/-- Closed witness for claim C2: three calls `[1, 2, 1]` from the initial
registry state (counter 100, all styles 100). -/
theorem c2_bringToFront_monotone_witness :
    (let st : RegState :=
       ⟨fun _ => false, fun _ => 100, 100, fun _ => false, fun _ => 0, fun _ => 0, fun _ => 100⟩
     (∀ k, k ≤ [1, 2, 1].length →
       (runBringToFront st ([1, 2, 1].take k)).currentZIndex = st.currentZIndex + k) ∧
     (∀ pre lastC, [1, 2, 1] = pre ++ [lastC] →
       (runBringToFront st [1, 2, 1]).zStyle lastC =
         (runBringToFront st [1, 2, 1]).currentZIndex ∧
       ∀ w, w ≠ lastC →
         (runBringToFront st [1, 2, 1]).zStyle w <
           (runBringToFront st [1, 2, 1]).currentZIndex)) :=
  c2_bringToFront_monotone _ [1, 2, 1] (fun _ => Nat.le_refl 100)

/-- Claim C4 as stated is false: `showWindow` centers through
`centerWindowNow`, which clamps nothing, so a 300px-wide window shown on a
100px-wide viewport is placed at `left = (100 - 300)/2 = -100 < 0`, while the
claim says the computed position is never negative. -/
theorem c4_counterexample :
    (showWindow cexEnv4 cexReg 0).left 0 = -100 ∧
      (showWindow cexEnv4 cexReg 0).left 0 < 0 := by
  constructor
  · norm_num [showWindow, setupWindow, centerWindowNow, bringToFront,
      cexEnv4, cexReg, Function.update]
  · norm_num [showWindow, setupWindow, centerWindowNow, bringToFront,
      cexEnv4, cexReg, Function.update]

/-- Claim C4 (amended): for every window whose element exists, `showWindow`
marks it active, places it at the unclamped centered position
`left = (viewportWidth - renderedWidth)/2`,
`top = (viewportHeight - renderedHeight)/2` (which may be negative when the
window exceeds the viewport — the code performs no clamping), and then raises
it to the front: its z-index becomes the incremented shared counter, strictly
above every other window. -/
theorem c4_showWindow_centers (env : Env) (st : RegState) (id : Nat)
    (hp : env.present id = true)
    (hz : ∀ w, st.zStyle w ≤ st.currentZIndex) :
    (showWindow env st id).active id = true ∧
    (showWindow env st id).left id = (env.innerWidth - env.rectW id) / 2 ∧
    (showWindow env st id).top id = (env.innerHeight - env.rectH id) / 2 ∧
    (showWindow env st id).currentZIndex = st.currentZIndex + 1 ∧
    (showWindow env st id).zStyle id = st.currentZIndex + 1 ∧
    ∀ w, w ≠ id → (showWindow env st id).zStyle w < (showWindow env st id).zStyle id := by
  have tail : ∀ st1 : RegState,
      st1.currentZIndex = st.currentZIndex → st1.zStyle = st.zStyle →
      ((bringToFront (centerWindowNow env
          { st1 with active := Function.update st1.active id true } id) id).active id = true ∧
       (bringToFront (centerWindowNow env
          { st1 with active := Function.update st1.active id true } id) id).left id =
         (env.innerWidth - env.rectW id) / 2 ∧
       (bringToFront (centerWindowNow env
          { st1 with active := Function.update st1.active id true } id) id).top id =
         (env.innerHeight - env.rectH id) / 2 ∧
       (bringToFront (centerWindowNow env
          { st1 with active := Function.update st1.active id true } id) id).currentZIndex =
         st.currentZIndex + 1 ∧
       (bringToFront (centerWindowNow env
          { st1 with active := Function.update st1.active id true } id) id).zStyle id =
         st.currentZIndex + 1 ∧
       ∀ w, w ≠ id →
         (bringToFront (centerWindowNow env
            { st1 with active := Function.update st1.active id true } id) id).zStyle w <
           (bringToFront (centerWindowNow env
              { st1 with active := Function.update st1.active id true } id) id).zStyle id) := by
    intro st1 h1 h2
    unfold bringToFront centerWindowNow
    dsimp only
    split_ifs <;>
      refine ⟨by simp [Function.update_same], by simp [Function.update_same],
        by simp [Function.update_same], by simp [h1], by simp [Function.update_same, h1], ?_⟩ <;>
      · intro w hw
        simp only [Function.update_noteq hw, Function.update_same, h1, h2]
        exact Nat.lt_succ_of_le (hz w)
  unfold showWindow
  rw [hp]
  simp only [Bool.true_eq_false, if_false]
  by_cases hr : st.registered id
  · simp only [hr, if_true]
    exact tail st rfl rfl
  · simp only [hr, Bool.false_eq_true, if_false]
    refine tail (setupWindow env st id) ?_ ?_ <;>
      · unfold setupWindow centerWindowNow
        split_ifs <;> rfl

/-- Closed witness for the amended claim C4 on a 1200×800 viewport with a
300×200 window. -/
theorem c4_showWindow_centers_witness :
    (let env : Env := ⟨1200, 800, fun _ => 300, fun _ => 200, fun _ => true, fun _ => true⟩
     let st : RegState :=
       ⟨fun _ => false, fun _ => 100, 100, fun _ => false, fun _ => 0, fun _ => 0, fun _ => 100⟩
     (showWindow env st 0).active 0 = true ∧
     (showWindow env st 0).left 0 = (env.innerWidth - env.rectW 0) / 2 ∧
     (showWindow env st 0).top 0 = (env.innerHeight - env.rectH 0) / 2 ∧
     (showWindow env st 0).currentZIndex = st.currentZIndex + 1 ∧
     (showWindow env st 0).zStyle 0 = st.currentZIndex + 1 ∧
     ∀ w, w ≠ 0 → (showWindow env st 0).zStyle w < (showWindow env st 0).zStyle 0) :=
  c4_showWindow_centers _ _ 0 rfl (fun _ => Nat.le_refl 100)

end WindowManager

namespace DrawingModeManager

theorem unblock_of_none (st : FreezeState)
    (h1 : st.interactionBlocker = none) (h2 : st.keyBlocker = none)
    (h3 : st.submitBlocker = none) (h4 : st.contextMenuBlocker = none) :
    unblockInteractions st = st := by
  simp [unblockInteractions, h1, h2, h3, h4]

theorem unblock_blockers_none (st : FreezeState) :
    (unblockInteractions st).interactionBlocker = none ∧
    (unblockInteractions st).keyBlocker = none ∧
    (unblockInteractions st).submitBlocker = none ∧
    (unblockInteractions st).contextMenuBlocker = none := by
  rcases h1 : st.interactionBlocker with _ | i1 <;>
    rcases h2 : st.keyBlocker with _ | i2 <;>
      rcases h3 : st.submitBlocker with _ | i3 <;>
        rcases h4 : st.contextMenuBlocker with _ | i4 <;>
          simp [unblockInteractions, h1, h2, h3, h4]

theorem block_shape (st : FreezeState) (hdoc : ∀ p ∈ st.doc, p.2 < st.nextId) :
    blockInteractions st =
      ⟨st.nextId + 4,
        st.doc ++ [("click", st.nextId), ("dblclick", st.nextId),
          ("mousedown", st.nextId), ("mouseup", st.nextId),
          ("keydown", st.nextId + 1), ("keypress", st.nextId + 1),
          ("keyup", st.nextId + 1), ("submit", st.nextId + 2),
          ("contextmenu", st.nextId + 3)],
        some st.nextId, some (st.nextId + 1), some (st.nextId + 2),
        some (st.nextId + 3)⟩ := by
  have hnotin : ∀ (t : String) (k : Nat), st.nextId ≤ k → ((t, k) ∈ st.doc) = False := by
    intro t k hk
    apply eq_false
    intro hm
    have := hdoc _ hm
    simp only at this
    omega
  simp [blockInteractions, addListener, List.mem_append, hnotin]

theorem unblock_block (st : FreezeState) (hdoc : ∀ p ∈ st.doc, p.2 < st.nextId) :
    unblockInteractions (blockInteractions st) =
      ⟨st.nextId + 4, st.doc, none, none, none, none⟩ := by
  rw [block_shape st hdoc]
  simp [unblockInteractions, removeListener, List.filter_append]
  intro a b hm
  have := hdoc _ hm
  simp only at this
  omega

/-- Claim C3 evaluated at the failing input: two `blockInteractions` calls in
a row (no intervening disable) from the constructor state register every
interceptor twice, not once — the closures of the first call stay registered while
their references are overwritten, so a following `unblockInteractions` leaves
the nine leaked registrations behind even though the freeze state is off. -/
theorem c3_double_enable_double_registers :
    countType (blockInteractions (blockInteractions initFreeze)).doc "click" = 2 ∧
    countType (blockInteractions (blockInteractions initFreeze)).doc "dblclick" = 2 ∧
    countType (blockInteractions (blockInteractions initFreeze)).doc "mousedown" = 2 ∧
    countType (blockInteractions (blockInteractions initFreeze)).doc "mouseup" = 2 ∧
    countType (blockInteractions (blockInteractions initFreeze)).doc "keydown" = 2 ∧
    countType (blockInteractions (blockInteractions initFreeze)).doc "keypress" = 2 ∧
    countType (blockInteractions (blockInteractions initFreeze)).doc "keyup" = 2 ∧
    countType (blockInteractions (blockInteractions initFreeze)).doc "submit" = 2 ∧
    countType (blockInteractions (blockInteractions initFreeze)).doc "contextmenu" = 2 ∧
    (unblockInteractions (blockInteractions (blockInteractions initFreeze))).doc.length = 9 := by
  decide

/-- Claim C8: `unblockInteractions` is total (never throws); with all blocker
references null (zero prior enables) it is the identity; after one
`blockInteractions` it removes exactly the nine registrations that call
installed, restoring the previous listener list and nulling every reference;
it is idempotent; and from the constructor state zero or one enables followed
by a disable leave zero registered listeners. -/
theorem c8_unblock_exact (st stp : FreezeState) :
    (st.interactionBlocker = none → st.keyBlocker = none →
      st.submitBlocker = none → st.contextMenuBlocker = none →
      unblockInteractions st = st) ∧
    ((∀ p ∈ stp.doc, p.2 < stp.nextId) →
      unblockInteractions (blockInteractions stp) =
        ⟨stp.nextId + 4, stp.doc, none, none, none, none⟩) ∧
    unblockInteractions (unblockInteractions st) = unblockInteractions st ∧
    (unblockInteractions initFreeze).doc = [] ∧
    (unblockInteractions (blockInteractions initFreeze)).doc = [] := by
  refine ⟨unblock_of_none st, unblock_block stp, ?_, by decide, by decide⟩
  obtain ⟨h1, h2, h3, h4⟩ := unblock_blockers_none st
  exact unblock_of_none _ h1 h2 h3 h4

/-- Closed witness for claim C8 at a concrete state carrying one unrelated
pre-existing listener, with every hypothesis discharged. -/
theorem c8_unblock_exact_witness :
    unblockInteractions ⟨6, [("scroll", 5)], none, none, none, none⟩ =
      ⟨6, [("scroll", 5)], none, none, none, none⟩ ∧
    unblockInteractions (blockInteractions ⟨6, [("scroll", 5)], none, none, none, none⟩) =
      ⟨10, [("scroll", 5)], none, none, none, none⟩ ∧
    (unblockInteractions (blockInteractions initFreeze)).doc = [] :=
  ⟨(c8_unblock_exact ⟨6, [("scroll", 5)], none, none, none, none⟩
      ⟨6, [("scroll", 5)], none, none, none, none⟩).1 rfl rfl rfl rfl,
   (c8_unblock_exact ⟨6, [("scroll", 5)], none, none, none, none⟩
      ⟨6, [("scroll", 5)], none, none, none, none⟩).2.1 (by decide),
   (c8_unblock_exact ⟨6, [("scroll", 5)], none, none, none, none⟩
      ⟨6, [("scroll", 5)], none, none, none, none⟩).2.2.2.2⟩

end DrawingModeManager

namespace DesktopApps

theorem writePixel_ne (buf : Nat → ℝ) (idx : Nat) (v : ℝ) (i : Nat)
    (h0 : i ≠ idx) (h1 : i ≠ idx + 1) (h2 : i ≠ idx + 2) (h3 : i ≠ idx + 3) :
    writePixel buf idx v i = buf i := by
  unfold writePixel
  rw [Function.update_noteq h3, Function.update_noteq h2, Function.update_noteq h1,
    Function.update_noteq h0]

theorem writePixel_hit (buf : Nat → ℝ) (idx : Nat) (v : ℝ) (k : Nat) (hk : k < 4) :
    writePixel buf idx v (idx + k) = if k = 3 then 255 else v := by
  unfold writePixel
  interval_cases k
  · rw [if_neg (by omega), Function.update_noteq (by omega),
      Function.update_noteq (by omega), Function.update_noteq (by omega), Nat.add_zero,
      Function.update_same]
  · rw [if_neg (by omega), Function.update_noteq (by omega),
      Function.update_noteq (by omega), Function.update_same]
  · rw [if_neg (by omega), Function.update_noteq (by omega), Function.update_same]
  · rw [if_pos rfl, Function.update_same]

theorem rowcol_inj {w x x' b b' : Nat} (hx : x < w) (hx' : x' < w)
    (h : b * w + x = b' * w + x') : b = b' ∧ x = x' := by
  have hw : 0 < w := Nat.lt_of_le_of_lt (Nat.zero_le x) hx
  have hb : b = b' := by
    have e1 : (x + b * w) / w = b := by
      rw [Nat.add_mul_div_right _ _ hw, Nat.div_eq_of_lt hx, Nat.zero_add]
    have e2 : (x' + b' * w) / w = b' := by
      rw [Nat.add_mul_div_right _ _ hw, Nat.div_eq_of_lt hx', Nat.zero_add]
    rw [← e1, ← e2, Nat.add_comm x, Nat.add_comm x', h]
  refine ⟨hb, ?_⟩
  subst hb
  omega

theorem pix_inj {w x x' y y' k k' : Nat} (hx : x < w) (hx' : x' < w)
    (hk : k < 4) (hk' : k' < 4) (h : pix w x y + k = pix w x' y' + k') :
    x = x' ∧ y = y' ∧ k = k' := by
  unfold pix at h
  obtain ⟨hrow, hkk⟩ := rowcol_inj hk hk' h
  obtain ⟨hyy, hxx⟩ := rowcol_inj hx hx' hrow
  exact ⟨hxx, hyy, hkk⟩

theorem rowFold_ne (data : Nat → ℚ) (w y : Nat) (xs : List Nat) (buf : Nat → ℝ)
    (i : Nat) (h : ∀ x ∈ xs, ∀ k, k < 4 → i ≠ pix w x y + k) :
    (xs.foldl (fun b x => writePixel b (pix w x y) (sketchValue data w x y)) buf) i = buf i := by
  induction xs generalizing buf with
  | nil => rfl
  | cons x rest ih =>
    rw [List.foldl_cons, ih _ (fun x' hx' => h x' (List.mem_cons_of_mem _ hx'))]
    have hh : ∀ k, k < 4 → i ≠ pix w x y + k := h x (List.mem_cons_self _ _)
    refine writePixel_ne _ _ _ _ ?_ (hh 1 (by omega)) (hh 2 (by omega)) (hh 3 (by omega))
    have := hh 0 (by omega)
    omega

theorem rowFold_hit (data : Nat → ℚ) (w y x0 k : Nat) (hx0w : x0 < w) (hk : k < 4) :
    ∀ xs : List Nat, x0 ∈ xs → (∀ x ∈ xs, x < w) → ∀ buf : Nat → ℝ,
      (xs.foldl (fun b x => writePixel b (pix w x y) (sketchValue data w x y)) buf)
          (pix w x0 y + k) =
        if k = 3 then 255 else sketchValue data w x0 y := by
  intro xs
  induction xs with
  | nil => intro hx0; cases hx0
  | cons x rest ih =>
    intro hx0 hbound buf
    rw [List.foldl_cons]
    by_cases hmem : x0 ∈ rest
    · exact ih hmem (fun x' hx' => hbound x' (List.mem_cons_of_mem _ hx')) _
    · have hx0x : x0 = x := by
        rcases List.mem_cons.1 hx0 with h | h
        · exact h
        · exact absurd h hmem
      subst hx0x
      rw [rowFold_ne data w y rest _ _ ?_]
      · exact writePixel_hit _ _ _ k hk
      · intro x' hx' k' hk' heq
        have hx'w := hbound x' (List.mem_cons_of_mem _ hx')
        obtain ⟨hxx, -, -⟩ := pix_inj hx0w hx'w hk hk' heq
        exact hmem (hxx ▸ hx')

theorem colFold_ne (data : Nat → ℚ) (w : Nat) (xs ys : List Nat) (buf : Nat → ℝ)
    (i : Nat) (h : ∀ y ∈ ys, ∀ x ∈ xs, ∀ k, k < 4 → i ≠ pix w x y + k) :
    (ys.foldl (fun buf y =>
        xs.foldl (fun b x => writePixel b (pix w x y) (sketchValue data w x y)) buf) buf) i =
      buf i := by
  induction ys generalizing buf with
  | nil => rfl
  | cons y rest ih =>
    rw [List.foldl_cons, ih _ (fun y' hy' => h y' (List.mem_cons_of_mem _ hy'))]
    exact rowFold_ne data w y xs buf i (h y (List.mem_cons_self _ _))

theorem colFold_hit (data : Nat → ℚ) (w x0 y0 k : Nat) (hx0w : x0 < w) (hk : k < 4)
    (xs : List Nat) (hx0 : x0 ∈ xs) (hxb : ∀ x ∈ xs, x < w) :
    ∀ ys : List Nat, y0 ∈ ys → ∀ buf : Nat → ℝ,
      (ys.foldl (fun buf y =>
          xs.foldl (fun b x => writePixel b (pix w x y) (sketchValue data w x y)) buf) buf)
          (pix w x0 y0 + k) =
        if k = 3 then 255 else sketchValue data w x0 y0 := by
  intro ys
  induction ys with
  | nil => intro hy0; cases hy0
  | cons y rest ih =>
    intro hy0 buf
    rw [List.foldl_cons]
    by_cases hmem : y0 ∈ rest
    · exact ih hmem _
    · have hy0y : y0 = y := by
        rcases List.mem_cons.1 hy0 with h | h
        · exact h
        · exact absurd h hmem
      subst hy0y
      rw [colFold_ne data w xs rest _ _ ?_]
      · exact rowFold_hit data w y0 x0 k hx0w hk xs hx0 hxb buf
      · intro y' hy' x' hx' k' hk' heq
        have hx'w := hxb x' hx'
        obtain ⟨-, hyy, -⟩ := pix_inj hx0w hx'w hk hk' heq
        exact hmem (hyy ▸ hy')

theorem applySketchFilter_interior (src : ImageDataQ) (x y k : Nat)
    (hx1 : 1 ≤ x) (hx2 : x + 1 < src.width) (hy1 : 1 ≤ y) (hy2 : y + 1 < src.height)
    (hk : k < 4) :
    (applySketchFilter src).data (pix src.width x y + k) =
      if k = 3 then 255 else sketchValue src.data src.width x y := by
  unfold applySketchFilter
  dsimp only
  refine colFold_hit src.data src.width x y k (by omega) hk _ ?_ ?_ _ ?_ _
  · simp only [List.mem_map, List.mem_range]
    exact ⟨x - 1, by omega, by omega⟩
  · intro x' hx'
    simp only [List.mem_map, List.mem_range] at hx'
    obtain ⟨j, hj, rfl⟩ := hx'
    omega
  · simp only [List.mem_map, List.mem_range]
    exact ⟨y - 1, by omega, by omega⟩

theorem applySketchFilter_border (src : ImageDataQ) (x y k : Nat) (hk : k < 4)
    (hx : x < src.width)
    (hb : x = 0 ∨ x + 1 = src.width ∨ y = 0 ∨ y + 1 = src.height) :
    (applySketchFilter src).data (pix src.width x y + k) = 0 := by
  unfold applySketchFilter
  dsimp only
  refine colFold_ne src.data src.width _ _ _ _ ?_
  intro y' hy' x' hx' k' hk' heq
  simp only [List.mem_map, List.mem_range] at hy' hx'
  obtain ⟨j, hj, rfl⟩ := hy'
  obtain ⟨i, hi, rfl⟩ := hx'
  obtain ⟨hxx, hyy, hkk⟩ := pix_inj hx (by omega) hk hk' heq
  omega

/-- Claim C5: at every interior pixel whose edge magnitude
`m = sqrt (gx² + gy²)` (with `gx = (Y(topRight)+Y(bottomRight)) -
(Y(topLeft)+Y(bottomLeft))`, `gy = (Y(bottomLeft)+Y(bottomRight)) -
(Y(topLeft)+Y(topRight))`, luminances `Y = 0.299R + 0.587G + 0.114B` taken at
the four diagonal neighbours) exceeds 30, the filter output carries
`max 0 (255 - m)` in all three colour channels and 255 in alpha. -/
theorem c5_edge_pixel (src : ImageDataQ) (x y : Nat)
    (hx1 : 1 ≤ x) (hx2 : x + 1 < src.width) (hy1 : 1 ≤ y) (hy2 : y + 1 < src.height)
    (hm : 30 < magnitudeAt src.data src.width x y) :
    (applySketchFilter src).data (pix src.width x y) =
      max 0 (255 - magnitudeAt src.data src.width x y) ∧
    (applySketchFilter src).data (pix src.width x y + 1) =
      max 0 (255 - magnitudeAt src.data src.width x y) ∧
    (applySketchFilter src).data (pix src.width x y + 2) =
      max 0 (255 - magnitudeAt src.data src.width x y) ∧
    (applySketchFilter src).data (pix src.width x y + 3) = 255 := by
  have hval : sketchValue src.data src.width x y =
      max 0 (255 - magnitudeAt src.data src.width x y) := by
    unfold sketchValue
    rw [if_pos hm]
  have h0 := applySketchFilter_interior src x y 0 hx1 hx2 hy1 hy2 (by omega)
  have h1 := applySketchFilter_interior src x y 1 hx1 hx2 hy1 hy2 (by omega)
  have h2 := applySketchFilter_interior src x y 2 hx1 hx2 hy1 hy2 (by omega)
  have h3 := applySketchFilter_interior src x y 3 hx1 hx2 hy1 hy2 (by omega)
  rw [Nat.add_zero] at h0
  simp only [if_neg (by omega : ¬ (0 : Nat) = 3)] at h0
  simp only [if_neg (by omega : ¬ (1 : Nat) = 3)] at h1
  simp only [if_neg (by omega : ¬ (2 : Nat) = 3)] at h2
  simp only [if_pos rfl] at h3
  exact ⟨h0.trans hval, h1.trans hval, h2.trans hval, h3⟩

/-- Closed witness for claim C5 at `edgeSrc`, interior pixel (1,1). -/
theorem c5_edge_pixel_witness :
    (applySketchFilter edgeSrc).data (pix 3 1 1) =
      max 0 (255 - magnitudeAt edgeSrc.data 3 1 1) ∧
    (applySketchFilter edgeSrc).data (pix 3 1 1 + 1) =
      max 0 (255 - magnitudeAt edgeSrc.data 3 1 1) ∧
    (applySketchFilter edgeSrc).data (pix 3 1 1 + 2) =
      max 0 (255 - magnitudeAt edgeSrc.data 3 1 1) ∧
    (applySketchFilter edgeSrc).data (pix 3 1 1 + 3) = 255 :=
  c5_edge_pixel edgeSrc 1 1 (by omega) (by norm_num [edgeSrc]) (by omega)
    (by norm_num [edgeSrc]) (by
      have hs : (30 : ℝ) < Real.sqrt 20000 :=
        (Real.lt_sqrt (by norm_num)).mpr (by norm_num)
      have he : magnitudeAt edgeSrc.data edgeSrc.width 1 1 = Real.sqrt 20000 := by
        norm_num [magnitudeAt, gxAt, gyAt, grayIdx, pix, edgeSrc]
      rw [he]
      exact hs)

/-- Claim C6: on a uniform-colour input frame (every pixel has channels
`(r, g, b)`), every interior pixel is classified flat (magnitude is 0, never
an edge) and all three output colour channels equal `min 255 (Y + 30)` where
`Y = 0.299r + 0.587g + 0.114b` is the luminance of the pixel. -/
theorem c6_uniform_flat (src : ImageDataQ) (r g b : ℚ)
    (hu : ∀ n : Nat, src.data (4 * n) = r ∧ src.data (4 * n + 1) = g ∧
      src.data (4 * n + 2) = b)
    (x y : Nat)
    (hx1 : 1 ≤ x) (hx2 : x + 1 < src.width) (hy1 : 1 ≤ y) (hy2 : y + 1 < src.height) :
    ¬ 30 < magnitudeAt src.data src.width x y ∧
    grayIdx src.data (pix src.width x y) = r * 0.299 + g * 0.587 + b * 0.114 ∧
    (applySketchFilter src).data (pix src.width x y) =
      min 255 ((grayIdx src.data (pix src.width x y) : ℝ) + 30) ∧
    (applySketchFilter src).data (pix src.width x y + 1) =
      min 255 ((grayIdx src.data (pix src.width x y) : ℝ) + 30) ∧
    (applySketchFilter src).data (pix src.width x y + 2) =
      min 255 ((grayIdx src.data (pix src.width x y) : ℝ) + 30) := by
  have hgray : ∀ x' y' : Nat, grayIdx src.data (pix src.width x' y') =
      r * 0.299 + g * 0.587 + b * 0.114 := by
    intro x' y'
    unfold grayIdx pix
    have e : (y' * src.width + x') * 4 = 4 * (y' * src.width + x') := Nat.mul_comm _ _
    rw [e]
    obtain ⟨h1, h2, h3⟩ := hu (y' * src.width + x')
    rw [h1, h2, h3]
  have hgx : gxAt src.data src.width x y = 0 := by
    unfold gxAt
    rw [hgray, hgray, hgray, hgray]
    ring
  have hgy : gyAt src.data src.width x y = 0 := by
    unfold gyAt
    rw [hgray, hgray, hgray, hgray]
    ring
  have hmag : magnitudeAt src.data src.width x y = 0 := by
    unfold magnitudeAt
    rw [hgx, hgy]
    norm_num
  have hnotedge : ¬ 30 < magnitudeAt src.data src.width x y := by
    rw [hmag]; norm_num
  have hval : sketchValue src.data src.width x y =
      min 255 ((grayIdx src.data (pix src.width x y) : ℝ) + 30) := by
    unfold sketchValue
    rw [if_neg hnotedge]
  have h0 := applySketchFilter_interior src x y 0 hx1 hx2 hy1 hy2 (by omega)
  have h1 := applySketchFilter_interior src x y 1 hx1 hx2 hy1 hy2 (by omega)
  have h2 := applySketchFilter_interior src x y 2 hx1 hx2 hy1 hy2 (by omega)
  rw [Nat.add_zero] at h0
  simp only [if_neg (by omega : ¬ (0 : Nat) = 3)] at h0
  simp only [if_neg (by omega : ¬ (1 : Nat) = 3)] at h1
  simp only [if_neg (by omega : ¬ (2 : Nat) = 3)] at h2
  exact ⟨hnotedge, hgray x y, h0.trans hval, h1.trans hval, h2.trans hval⟩

/-- Closed witness for claim C6: a uniform 3×3 frame with every channel 100;
the interior pixel is flat and brightened to `min 255 130 = 130`. -/
theorem c6_uniform_flat_witness :
    ¬ 30 < magnitudeAt (fun _ => (100 : ℚ)) 3 1 1 ∧
    grayIdx (fun _ => (100 : ℚ)) (pix 3 1 1) =
      100 * 0.299 + 100 * 0.587 + 100 * 0.114 ∧
    (applySketchFilter ⟨3, 3, fun _ => 100⟩).data (pix 3 1 1) =
      min 255 ((grayIdx (fun _ => (100 : ℚ)) (pix 3 1 1) : ℝ) + 30) ∧
    (applySketchFilter ⟨3, 3, fun _ => 100⟩).data (pix 3 1 1 + 1) =
      min 255 ((grayIdx (fun _ => (100 : ℚ)) (pix 3 1 1) : ℝ) + 30) ∧
    (applySketchFilter ⟨3, 3, fun _ => 100⟩).data (pix 3 1 1 + 2) =
      min 255 ((grayIdx (fun _ => (100 : ℚ)) (pix 3 1 1) : ℝ) + 30) :=
  c6_uniform_flat ⟨3, 3, fun _ => 100⟩ 100 100 100
    (fun _ => ⟨rfl, rfl, rfl⟩) 1 1 (by omega) (by norm_num) (by omega) (by norm_num)

/-- Claim C7 as stated is false: the output frame of `createImageData` starts
as transparent black and the loop never writes the 1-pixel border, so the
produced frame is not at full opacity at every pixel — on a 3×3 all-black
input, the alpha of border pixel (0,0) (flat index 3) is 0, not 255. -/
theorem c7_counterexample :
    (applySketchFilter ⟨3, 3, fun _ => 0⟩).data 3 = 0 ∧
      (applySketchFilter ⟨3, 3, fun _ => 0⟩).data 3 ≠ 255 := by
  have h := applySketchFilter_border ⟨3, 3, fun _ => 0⟩ 0 0 3 (by omega) (by norm_num)
    (Or.inl rfl)
  have e : pix 3 0 0 + 3 = 3 := by norm_num [pix]
  rw [e] at h
  exact ⟨h, by rw [h]; norm_num⟩

/-- Claim C7 (amended): the filter produces an output frame of identical
dimensions; every interior pixel is written at full opacity (alpha 255); the
1-pixel border is left as `createImageData` created it — transparent black
(all four components 0), so the full frame is not uniformly opaque. -/
theorem c7_dims_opacity (src : ImageDataQ) :
    (applySketchFilter src).width = src.width ∧
    (applySketchFilter src).height = src.height ∧
    (∀ x y : Nat, 1 ≤ x → x + 1 < src.width → 1 ≤ y → y + 1 < src.height →
      (applySketchFilter src).data (pix src.width x y + 3) = 255) ∧
    (∀ x y k : Nat, k < 4 → x < src.width →
      (x = 0 ∨ x + 1 = src.width ∨ y = 0 ∨ y + 1 = src.height) →
      (applySketchFilter src).data (pix src.width x y + k) = 0) := by
  refine ⟨rfl, rfl, ?_, ?_⟩
  · intro x y hx1 hx2 hy1 hy2
    have h := applySketchFilter_interior src x y 3 hx1 hx2 hy1 hy2 (by omega)
    simpa using h
  · intro x y k hk hx hb
    exact applySketchFilter_border src x y k hk hx hb

/-- Closed witness for the amended claim C7 on a 3×3 all-black frame. -/
theorem c7_dims_opacity_witness :
    (applySketchFilter ⟨3, 3, fun _ => 0⟩).width = 3 ∧
    (applySketchFilter ⟨3, 3, fun _ => 0⟩).data (pix 3 1 1 + 3) = 255 ∧
    (applySketchFilter ⟨3, 3, fun _ => 0⟩).data (pix 3 2 0 + 2) = 0 :=
  ⟨(c7_dims_opacity ⟨3, 3, fun _ => 0⟩).1,
   (c7_dims_opacity ⟨3, 3, fun _ => 0⟩).2.2.1 1 1 (by omega) (by norm_num) (by omega)
     (by norm_num),
   (c7_dims_opacity ⟨3, 3, fun _ => 0⟩).2.2.2 2 0 2 (by omega) (by norm_num)
     (by norm_num)⟩

theorem renderGallery_drawings (st : AppsState) :
    (renderGallery st).drawings = st.drawings := by
  unfold renderGallery
  split_ifs <;> rfl

theorem foldl_append_map {α β : Type} (f : α → β) (l : List α) (init : List β) :
    l.foldl (fun acc a => acc ++ [f a]) init = init ++ l.map f := by
  induction l generalizing init with
  | nil => simp
  | cons a rest ih => simp [ih, List.append_assoc]

theorem applyOp_drawings (png : Nat → String) (st : AppsState) (op : AppOp) :
    ∃ tail, (applyOp png st op).drawings = st.drawings ++ tail := by
  cases op with
  | submit now ts white =>
    unfold applyOp submitDrawing
    cases st.canvas with
    | none => exact ⟨[], by simp⟩
    | some c => exact ⟨[⟨now, png c, ts⟩], by rw [renderGallery_drawings]⟩
  | clearCanvas white =>
    unfold applyOp
    cases st.canvas with
    | none => exact ⟨[], by simp⟩
    | some c => exact ⟨[], by simp⟩
  | openGallery => exact ⟨[], by simp [applyOp, renderGallery_drawings]⟩
  | setupCanvas c => exact ⟨[], by simp [applyOp]⟩

/-- Claim C9: the submitted-drawings list is append-only across every session
operation sequence; a submit with an existing canvas appends exactly one
drawing whose data URL is the PNG serialization of the canvas; and rendering
the gallery produces exactly one entry per stored drawing, in submission
order. -/
theorem c9_drawings_append_only (png : Nat → String) :
    (∀ (st : AppsState) (ops : List AppOp), ∃ tail,
      (ops.foldl (applyOp png) st).drawings = st.drawings ++ tail) ∧
    (∀ (st : AppsState) (c now : Nat) (ts : String) (white : Nat),
      st.canvas = some c →
      (submitDrawing png now ts white st).drawings = st.drawings ++ [⟨now, png c, ts⟩]) ∧
    (∀ st : AppsState,
      (renderGallery st).galleryGrid = (st.drawings.enum).map (fun p => mkItem p.1 p.2) ∧
      (renderGallery st).galleryGrid.length = st.drawings.length) := by
  refine ⟨?_, ?_, ?_⟩
  · intro st ops
    induction ops generalizing st with
    | nil => exact ⟨[], by simp⟩
    | cons op rest ih =>
      obtain ⟨t1, h1⟩ := applyOp_drawings png st op
      obtain ⟨t2, h2⟩ := ih (applyOp png st op)
      exact ⟨t1 ++ t2, by rw [List.foldl_cons, h2, h1, List.append_assoc]⟩
  · intro st c now ts white hc
    unfold submitDrawing
    rw [hc, renderGallery_drawings]
  · intro st
    have hgrid : (renderGallery st).galleryGrid =
        (st.drawings.enum).map (fun p => mkItem p.1 p.2) := by
      unfold renderGallery
      split_ifs with hempty
      · simp [hempty]
      · simp [foldl_append_map]
    refine ⟨hgrid, ?_⟩
    rw [hgrid]
    simp [List.enum_length]

/-- Closed witness for claim C9: one submit on an empty session with canvas
content 7, then a render. -/
theorem c9_drawings_append_only_witness :
    (∃ tail,
      (([AppOp.submit 5 "ts" 0].foldl (applyOp (fun n => "png" ++ toString n))
        ⟨[], some 7, [], false⟩).drawings) = ([] : List Drawing) ++ tail) ∧
    (submitDrawing (fun n => "png" ++ toString n) 5 "ts" 0
        ⟨[], some 7, [], false⟩).drawings =
      ([] : List Drawing) ++ [⟨5, (fun n => "png" ++ toString n) 7, "ts"⟩] ∧
    (renderGallery ⟨[⟨5, "p", "ts"⟩], some 7, [], false⟩).galleryGrid =
      (([⟨5, "p", "ts"⟩] : List Drawing).enum).map (fun p => mkItem p.1 p.2) :=
  ⟨(c9_drawings_append_only (fun n => "png" ++ toString n)).1
      ⟨[], some 7, [], false⟩ [AppOp.submit 5 "ts" 0],
   (c9_drawings_append_only (fun n => "png" ++ toString n)).2.1
      ⟨[], some 7, [], false⟩ 7 5 "ts" 0 rfl,
   ((c9_drawings_append_only (fun n => "png" ++ toString n)).2.2
      ⟨[⟨5, "p", "ts"⟩], some 7, [], false⟩).1⟩

end DesktopApps
